import Mathlib

/-!
Shallow embedding of the zstd-jsonl-filter program (src/main.rs) and proofs
about its specification claims.

The heart of the program is `read_lines`: one task per input `.zst` file that
runs entry guards (empty / unreadable / output-exists / invalid-format),
decodes the file line by line, keeps the lines matching a regex, buffers kept
lines with a one-line lookback so the last kept line is written without a
trailing newline, and deletes the output file if nothing was ever written.

Lines are modelled as `List Char` (byte strings), the regex as an opaque
boolean predicate `pattern : List Char → Bool`, and the I/O environment of a
single task as an explicit `Env` record.  Decoded lines arrive as
`Except Unit (List Char)`: `.error` models a zstd decode failure for that
line, which the source handles with a process-fatal panic.
-/

/-- Line separator used by the program: `format!("{}\n", last_line)` appends a
single newline between kept lines. -/
def sep : Char := '\n'

/-- The configuration fields of `Config` in main.rs that the core filter task
reads.  `pattern` abstracts the compiled regex as a per-line predicate
(`Regex::is_match`); `buffer` is the flush threshold in bytes; `zstd`,
`compression_level` and `window_log_max` select the re-encoding transform and
decoder window and do not change which bytes reach the output sink. -/
structure Config where
  pattern : List Char → Bool
  buffer : Nat
  no_write : Bool
  quiet : Bool
  zstd : Bool
  compression_level : Int
  window_log_max : Nat

/-- Mutable loop state of one `read_lines` call: the in-memory byte `buffer`,
the one-line lookback `lastMatchingLine` (`last_matching_line` in the source),
the `flag_data_written` flag, and `out`, the chunks handed to the
`write_to_output` closure so far, in order. -/
structure FilterState where
  buffer : List Char
  lastMatchingLine : Option (List Char)
  flagDataWritten : Bool
  out : List (List Char)
  deriving Repr, DecidableEq

/-- State at the top of `read_lines`: empty buffer, no pending line, nothing
written. -/
def initFilterState : FilterState :=
  { buffer := [], lastMatchingLine := none, flagDataWritten := false, out := [] }

/-- Models `flush_buffer`: hand the buffer to `write_to_output` and clear it. -/
def flush_buffer (st : FilterState) : FilterState :=
  { st with out := st.out ++ [st.buffer], buffer := [] }

/-- The keep-path of the loop body before the threshold check: set
`flag_data_written`, promote the pending line (with a separator) into the
buffer via `last_matching_line.take()`, and store the current line as the new
pending line. -/
def after_append (st : FilterState) (line : List Char) : FilterState :=
  { st with
    flagDataWritten := true
    buffer :=
      match st.lastMatchingLine with
      | some last => st.buffer ++ (last ++ [sep])
      | none => st.buffer
    lastMatchingLine := some line }

/-- One iteration of the `for line in lines` loop of `read_lines` for a
successfully decoded line: on a regex match (and unless `no_write`), append
the pending line to the buffer, store the current line as pending, and flush
when `buffer.len() >= config.buffer`. -/
def process_line (noWrite : Bool) (threshold : Nat) (pat : List Char → Bool)
    (st : FilterState) (line : List Char) : FilterState :=
  if pat line then
    if noWrite then st
    else
      let st1 := after_append st line
      if threshold ≤ st1.buffer.length then flush_buffer st1 else st1
  else st

/-- Whether processing `line` in state `st` reaches the in-loop
`flush_buffer(..).unwrap()` call, i.e. the line is kept, writing is enabled,
and the buffer reaches the threshold after the pending line is promoted. -/
def triggers_flush (noWrite : Bool) (threshold : Nat) (pat : List Char → Bool)
    (st : FilterState) (line : List Char) : Bool :=
  pat line && !noWrite && decide (threshold ≤ (after_append st line).buffer.length)

/-- A decoded line failed (`Err` from the zstd reader). -/
def is_decode_error : Except Unit (List Char) → Bool
  | .error _ => true
  | .ok _ => false

/-- How the per-line loop ends: all lines consumed (`done`), process-fatal
panic on a decode error (`panicDecode`, the `panic!` at the `Err` arm), or
process-fatal panic from `flush_buffer(..).unwrap()` when the sink write
fails mid-loop (`panicFlush`).  Each exit carries the number of lines the
decoder yielded before it. -/
inductive LoopExit where
  | done (st : FilterState) (consumed : Nat)
  | panicDecode (consumed : Nat)
  | panicFlush (consumed : Nat)
  deriving Repr, DecidableEq

/-- The `for line in lines` loop of `read_lines`.  `sinkFails` models an
environment in which calls to `write_to_output` through a present writer
return an I/O error; in that case the in-loop flush panics via `unwrap()`. -/
def runLoop (noWrite sinkFails : Bool) (threshold : Nat) (pat : List Char → Bool) :
    FilterState → Nat → List (Except Unit (List Char)) → LoopExit
  | st, n, [] => .done st n
  | _, n, .error _ :: _ => .panicDecode n
  | st, n, .ok line :: rest =>
    if sinkFails && triggers_flush noWrite threshold pat st line then
      .panicFlush (n + 1)
    else
      runLoop noWrite sinkFails threshold pat
        (process_line noWrite threshold pat st line) (n + 1) rest

/-- Entry-guard skip reasons of `read_lines`, in the order the guards run:
empty input, unreadable metadata, output already exists, invalid zstd. -/
inductive SkipReason where
  | empty
  | unreadable
  | alreadyExists
  | invalidFormat
  deriving Repr, DecidableEq

/-- Status notices the task prints (through `print_if_not_quiet`). -/
inductive Notice where
  | skippingEmpty
  | failedMetadata
  | skippingExisting
  | notValidZstd
  | unableToCreate
  | emptyOutputDeleted
  deriving Repr, DecidableEq

/-- Models `print_if_not_quiet`: the notice is emitted unless `quiet`. -/
def print_if_not_quiet (quiet : Bool) (message : Notice) : List Notice :=
  if quiet then [] else [message]

/-- I/O error kinds `read_lines` can return: `notFound` from
`fs::remove_file` on a file that was never created, `writeFailed` from a
failing `write_to_output` at the final flush or final pending-line write. -/
inductive IoErrorKind where
  | notFound
  | writeFailed
  deriving Repr, DecidableEq

/-- How one `read_lines` call ends: `Ok(())`, `Err(e)`, or a process-fatal
panic. -/
inductive TaskResult where
  | ok
  | err (e : IoErrorKind)
  | panicked
  deriving Repr, DecidableEq

/-- The I/O environment one `read_lines` call observes.
`inputMeta` is `fs::metadata` on the input (`none` = unreadable, otherwise
the byte size); `outputExists` and `preexistingOutput` describe the
destination path at task start; `validZstd` is the outcome of `verify_zstd`
(magic-number check plus decoder construction); `createOk` is whether
`File::create` on the destination succeeds; `writeFails` posits an
environment in which sink writes through a present writer fail; `lines` is
the decoded line sequence, with `.error` marking a mid-stream decode
failure. -/
structure Env where
  inputMeta : Option Nat
  outputExists : Bool
  preexistingOutput : List Char
  validZstd : Bool
  createOk : Bool
  writeFails : Bool
  lines : List (Except Unit (List Char))

/-- Everything observable about one `read_lines` call: its return value, the
skip reason if an entry guard fired, whether the destination file was
created, the destination state afterwards (`none` = no file; the recorded
bytes are the logical content, i.e. the concatenation of sink chunks —
identical to the file bytes in raw mode and to the decompressed bytes in
re-encode mode), the chunks handed to `write_to_output`, the final
`flag_data_written`, the number of lines the decoder yielded, the amount
subtracted from `global_to_be_processed_size`, and the notices printed.
On a panic the process dies mid-task, so `outputAfter`/`sinkChunks` are
recorded as `none`/`[]` (not observable) in that case. -/
structure Outcome where
  result : TaskResult
  skipped : Option SkipReason
  createdOutput : Bool
  outputAfter : Option (List Char)
  sinkChunks : List (List Char)
  flagDataWritten : Bool
  decodedLineCount : Nat
  toBeProcessedDelta : Nat
  notices : List Notice
  deriving Repr, DecidableEq

/-- A writer exists exactly when writing is enabled and `File::create`
succeeded (`output_file.ok()` / the `BufWriter` option in the source). -/
def writer_present (config : Config) (env : Env) : Bool :=
  !config.no_write && env.createOk

/-- Outcome of an entry-guard skip: task returns `Ok(())`, nothing is
created, decoded or written, and the destination is untouched. -/
def skip_outcome (env : Env) (r : SkipReason) (delta : Nat) (ns : List Notice) :
    Outcome :=
  { result := .ok, skipped := some r, createdOutput := false,
    outputAfter := if env.outputExists then some env.preexistingOutput else none,
    sinkChunks := [], flagDataWritten := false, decodedLineCount := 0,
    toBeProcessedDelta := delta, notices := ns }

/-- The chunks `write_to_output` has received once the epilogue of
`read_lines` finishes: the in-loop chunks, the final flush of a non-empty
buffer, then the pending last line written without a separator. -/
def final_chunks (st : FilterState) : List (List Char) :=
  (if st.buffer.isEmpty then st.out else st.out ++ [st.buffer]) ++
    (match st.lastMatchingLine with
     | some l => [l]
     | none => [])

/-- Epilogue of `read_lines` after the loop finished without panicking:
flush a non-empty buffer (`?` on failure), write the pending last line with
no separator (`?` on failure), then, if `flag_data_written` is still false,
`fs::remove_file` the output path (`?` turns a missing file into an
`Err(NotFound)` return) and print the deletion notice. -/
def finish_task (config : Config) (env : Env) (st : FilterState)
    (consumed : Nat) (ns : List Notice) : Outcome :=
  let wp := writer_present config env
  let sinkFails := wp && env.writeFails
  let base : Outcome :=
    { result := .ok, skipped := none, createdOutput := wp,
      outputAfter := none, sinkChunks := [], flagDataWritten := st.flagDataWritten,
      decodedLineCount := consumed, toBeProcessedDelta := 0, notices := ns }
  if !st.buffer.isEmpty && sinkFails then
    { base with
      result := .err .writeFailed,
      sinkChunks := st.out,
      outputAfter := if wp then some st.out.flatten else none }
  else
    let out1 := if st.buffer.isEmpty then st.out else st.out ++ [st.buffer]
    if st.lastMatchingLine.isSome && sinkFails then
      { base with
        result := .err .writeFailed,
        sinkChunks := out1,
        outputAfter := if wp then some out1.flatten else none }
    else
      let out2 := final_chunks st
      if st.flagDataWritten then
        { base with
          sinkChunks := out2,
          outputAfter := if wp then some out2.flatten else none }
      else if wp then
        { base with
          sinkChunks := out2,
          outputAfter := none,
          notices := ns ++ print_if_not_quiet config.quiet .emptyOutputDeleted }
      else
        { base with
          result := .err .notFound,
          sinkChunks := out2,
          outputAfter := none }

/-- One whole `read_lines` call: entry guards in source order (empty input,
unreadable metadata, existing output — which alone corrects
`global_to_be_processed_size` downward by the file size —, invalid zstd),
then output-file creation, the per-line filter loop and the epilogue. -/
def read_lines (config : Config) (env : Env) : Outcome :=
  match env.inputMeta with
  | none =>
    skip_outcome env .unreadable 0 (print_if_not_quiet config.quiet .failedMetadata)
  | some filesize =>
    if filesize = 0 then
      skip_outcome env .empty 0 (print_if_not_quiet config.quiet .skippingEmpty)
    else if env.outputExists then
      skip_outcome env .alreadyExists filesize
        (print_if_not_quiet config.quiet .skippingExisting)
    else if !env.validZstd then
      skip_outcome env .invalidFormat 0
        (print_if_not_quiet config.quiet .notValidZstd)
    else
      let ns :=
        if !config.no_write && !env.createOk then
          print_if_not_quiet config.quiet .unableToCreate
        else []
      let sinkFails := writer_present config env && env.writeFails
      match runLoop config.no_write sinkFails config.buffer config.pattern
          initFilterState 0 env.lines with
      | .done st consumed => finish_task config env st consumed ns
      | .panicDecode consumed =>
        { result := .panicked, skipped := none,
          createdOutput := writer_present config env,
          outputAfter := none, sinkChunks := [], flagDataWritten := false,
          decodedLineCount := consumed, toBeProcessedDelta := 0, notices := ns }
      | .panicFlush consumed =>
        { result := .panicked, skipped := none,
          createdOutput := writer_present config env,
          outputAfter := none, sinkChunks := [], flagDataWritten := false,
          decodedLineCount := consumed, toBeProcessedDelta := 0, notices := ns }

/-- The output shape the spec describes: `L1 + sep + L2 + sep + ... + Ln`,
with no separator after the last line, empty for no lines. -/
def spec_joined : List (List Char) → List Char
  | [] => []
  | [l] => l
  | l :: l' :: ls => l ++ [sep] ++ spec_joined (l' :: ls)

/-- Largest value of a `u64`. -/
def U64MAX : Nat := 2 ^ 64 - 1

/-- Release-mode wrapping subtraction on `u64` values, used for
`global_to_be_processed_size - processed_size_estimate` in the progress
updater (both operands are `u64`; on underflow the release build wraps
modulo `2^64`). -/
def wrapping_sub_u64 (a b : Nat) : Nat :=
  (a + (2 ^ 64 - b % 2 ^ 64)) % 2 ^ 64

/-- One progress-updater tick's remaining-time computation (seconds), from
`remaining_compressed_data as f64 / disk_usage_reads as f64` cast back to
`u64` for `Duration::new`.  Rust's float-to-int cast saturates: `NaN` (0/0)
becomes 0, `+inf` (positive / 0) becomes `u64::MAX`; for a nonzero divisor
the quotient is modelled as exact truncating division, clamped to
`u64::MAX`. -/
def eta_seconds (toBeProcessed estimate diskReads : Nat) : Nat :=
  let remaining := wrapping_sub_u64 toBeProcessed estimate
  if diskReads = 0 then
    if remaining = 0 then 0 else U64MAX
  else
    min (remaining / diskReads) U64MAX

/-- With `no_write` set, the loop body touches nothing: the match arm skips
buffering entirely. -/
theorem process_line_no_write (t : Nat) (pat : List Char → Bool)
    (st : FilterState) (line : List Char) :
    process_line true t pat st line = st := by
  unfold process_line
  by_cases h : pat line <;> simp [h]

/-- When sink writes succeed, the loop over successfully decoded lines is a
plain left fold of `process_line`. -/
theorem runLoop_map_ok (nw : Bool) (t : Nat) (pat : List Char → Bool)
    (L : List (List Char)) (st : FilterState) (n : Nat) :
    runLoop nw false t pat st n (L.map .ok) =
      .done (L.foldl (process_line nw t pat) st) (n + L.length) := by
  induction L generalizing st n with
  | nil => simp [runLoop]
  | cons l rest ih =>
    simp only [List.map_cons, runLoop, Bool.false_and, Bool.false_eq_true,
      if_false, List.foldl_cons, List.length_cons, ih]
    congr 1
    omega

/-- Invariant tying the loop state after processing some lines to the list
`M` of lines kept so far (writing enabled): the pending line is the last
kept line, the bytes accumulated (already flushed plus still buffered) are
all earlier kept lines each followed by a separator, and
`flag_data_written` says whether any line was kept. -/
def FilterInv (st : FilterState) (M : List (List Char)) : Prop :=
  st.lastMatchingLine = M.getLast? ∧
  st.out.flatten ++ st.buffer = (M.dropLast.map (· ++ [sep])).flatten ∧
  st.flagDataWritten = !M.isEmpty

/-- The initial loop state corresponds to nothing kept yet. -/
theorem filterInv_init : FilterInv initFilterState [] := by
  simp [FilterInv, initFilterState]

/-- Flushing moves the buffer into the emitted chunks without changing the
accumulated bytes, the pending line, or the written flag. -/
theorem flush_buffer_spec (st : FilterState) :
    (flush_buffer st).out.flatten ++ (flush_buffer st).buffer =
      st.out.flatten ++ st.buffer ∧
    (flush_buffer st).lastMatchingLine = st.lastMatchingLine ∧
    (flush_buffer st).flagDataWritten = st.flagDataWritten := by
  simp [flush_buffer]

/-- One keep-or-drop step preserves the invariant, extending `M` exactly
when the line matches. -/
theorem filterInv_step (t : Nat) (pat : List Char → Bool)
    (st : FilterState) (M : List (List Char)) (line : List Char)
    (h : FilterInv st M) :
    FilterInv (process_line false t pat st line)
      (M ++ if pat line then [line] else []) := by
  obtain ⟨hlast, hbytes, hflag⟩ := h
  by_cases hp : pat line
  · simp only [process_line, hp, if_true, Bool.false_eq_true, if_false]
    have hstep : FilterInv (after_append st line) (M ++ [line]) := by
      rcases List.eq_nil_or_concat M with hM | ⟨M₀, m, hM⟩
      · subst hM
        simp only [List.getLast?_nil] at hlast
        refine ⟨by simp [after_append], ?_, by simp [after_append]⟩
        simp only [after_append, hlast] at *
        simpa using hbytes
      · simp only [List.concat_eq_append] at hM
        subst hM
        simp only [List.getLast?_concat] at hlast
        refine ⟨by simp [after_append], ?_, by simp [after_append]⟩
        simp only [after_append, hlast]
        simp only [List.dropLast_concat] at hbytes
        simp [List.dropLast_concat, ← List.append_assoc, hbytes]
    by_cases hth : t ≤ (after_append st line).buffer.length
    · simp only [if_pos hth]
      obtain ⟨h1, h2, h3⟩ := hstep
      exact ⟨(flush_buffer_spec _).2.1.trans h1,
        (flush_buffer_spec _).1.trans h2, (flush_buffer_spec _).2.2.trans h3⟩
    · simpa [if_neg hth] using hstep
  · simpa [process_line, hp] using ⟨hlast, hbytes, hflag⟩

/-- Folding the loop body over any line list preserves the invariant,
extending `M` by the kept lines in encounter order. -/
theorem filterInv_foldl (t : Nat) (pat : List Char → Bool)
    (L : List (List Char)) (st : FilterState) (M : List (List Char))
    (h : FilterInv st M) :
    FilterInv (L.foldl (process_line false t pat) st) (M ++ L.filter pat) := by
  induction L generalizing st M with
  | nil => simpa using h
  | cons l rest ih =>
    have h' := filterInv_step t pat st M l h
    have := ih _ _ h'
    by_cases hp : pat l <;>
      simpa [List.filter_cons, hp, List.append_assoc] using this

/-- All-but-last kept lines followed by separators, then the last kept line
bare, is exactly the separator-joined output the spec describes. -/
theorem spec_joined_concat (M₀ : List (List Char)) (m : List Char) :
    (M₀.map (· ++ [sep])).flatten ++ m = spec_joined (M₀ ++ [m]) := by
  induction M₀ with
  | nil => simp [spec_joined]
  | cons a M₀ ih =>
    cases M₀ with
    | nil => simp [spec_joined]
    | cons b M₀' =>
      simp only [List.map_cons, List.flatten_cons, List.cons_append] at *
      rw [List.append_assoc, List.append_assoc, ih]
      simp [spec_joined]

/-- Under the invariant, the chunks handed to the sink by the end of the
task concatenate to the spec's separator-joined kept lines. -/
theorem final_chunks_flatten (st : FilterState) (M : List (List Char))
    (h : FilterInv st M) : (final_chunks st).flatten = spec_joined M := by
  obtain ⟨hlast, hbytes, _⟩ := h
  rcases List.eq_nil_or_concat M with hM | ⟨M₀, m, hM⟩
  · subst hM
    simp only [List.getLast?_nil] at hlast
    simp only [List.dropLast_nil, List.map_nil, List.flatten_nil,
      List.append_eq_nil] at hbytes
    simp [final_chunks, hlast, hbytes.1, hbytes.2, spec_joined]
  · simp only [List.concat_eq_append] at hM
    subst hM
    simp only [List.getLast?_concat] at hlast
    simp only [List.dropLast_concat] at hbytes
    rw [← spec_joined_concat, ← hbytes]
    by_cases hb : st.buffer.isEmpty
    · have : st.buffer = [] := by simpa [List.isEmpty_iff] using hb
      simp [final_chunks, hlast, hb, this]
    · simp [final_chunks, hlast, hb, List.append_assoc]

/-- The loop body keeps the buffer strictly below the flush threshold (below
1, i.e. empty, when the threshold is 0): a keep-step either flushes — leaving
an empty buffer — or stays under the threshold, and a drop-step leaves the
buffer alone. -/
theorem process_line_buffer_lt (nw : Bool) (t : Nat) (pat : List Char → Bool)
    (st : FilterState) (line : List Char)
    (h : st.buffer.length < max t 1) :
    (process_line nw t pat st line).buffer.length < max t 1 := by
  unfold process_line
  by_cases hp : pat line
  · by_cases hw : nw
    · simpa [hp, hw] using h
    · by_cases hth : t ≤ (after_append st line).buffer.length
      · simp [hp, hw, hth, flush_buffer]
      · simp only [hp, if_true, hw, Bool.false_eq_true, if_false, if_neg hth]
        omega
  · simpa [hp] using h

/-- Folding the loop from the initial (empty) buffer keeps the buffer
strictly below the flush threshold after every line. -/
theorem foldl_buffer_lt (nw : Bool) (t : Nat) (pat : List Char → Bool)
    (L : List (List Char)) (st : FilterState)
    (h : st.buffer.length < max t 1) :
    (L.foldl (process_line nw t pat) st).buffer.length < max t 1 := by
  induction L generalizing st with
  | nil => simpa using h
  | cons l rest ih => exact ih _ (process_line_buffer_lt nw t pat st l h)

/-- The loop exits through the decode-error panic only when the line list
contains a decode error. -/
theorem runLoop_panicDecode_has_error (nw sf : Bool) (t : Nat)
    (pat : List Char → Bool) (lines : List (Except Unit (List Char)))
    (st : FilterState) (n m : Nat)
    (h : runLoop nw sf t pat st n lines = .panicDecode m) :
    lines.any is_decode_error = true := by
  induction lines generalizing st n with
  | nil => simp [runLoop] at h
  | cons l rest ih =>
    cases l with
    | error e => simp [is_decode_error]
    | ok line =>
      simp only [runLoop] at h
      by_cases hc : sf && triggers_flush nw t pat st line
      · simp [hc] at h
      · simp only [hc, Bool.false_eq_true, if_false] at h
        simp only [List.any_cons, is_decode_error, Bool.false_or]
        exact ih _ _ h

/-- The loop exits through the in-loop flush panic only when sink writes
fail. -/
theorem runLoop_panicFlush_sink (nw sf : Bool) (t : Nat)
    (pat : List Char → Bool) (lines : List (Except Unit (List Char)))
    (st : FilterState) (n m : Nat)
    (h : runLoop nw sf t pat st n lines = .panicFlush m) : sf = true := by
  induction lines generalizing st n with
  | nil => simp [runLoop] at h
  | cons l rest ih =>
    cases l with
    | error e => simp [runLoop] at h
    | ok line =>
      simp only [runLoop] at h
      by_cases hc : sf && triggers_flush nw t pat st line
      · exact (Bool.and_eq_true_iff.mp hc).1
      · simp only [hc, Bool.false_eq_true, if_false] at h
        exact ih _ _ h

/-- The epilogue of a completed loop never panics: it returns `Ok` or a
task-local `Err`. -/
theorem finish_task_result_ne_panicked (config : Config) (env : Env)
    (st : FilterState) (consumed : Nat) (ns : List Notice) :
    (finish_task config env st consumed ns).result ≠ .panicked := by
  by_cases h1 : st.buffer.isEmpty <;>
    by_cases h2 : writer_present config env <;>
    by_cases h3 : env.writeFails <;>
    by_cases h4 : st.lastMatchingLine.isSome <;>
    by_cases h5 : st.flagDataWritten <;>
    simp [finish_task, h1, h2, h3, h4, h5]

/-- When all entry guards pass, all lines decode, and sink writes succeed,
`read_lines` is the epilogue applied to the fold of the loop body over the
decoded lines. -/
theorem read_lines_filter_phase (config : Config) (env : Env)
    (L : List (List Char)) (n : Nat)
    (hmeta : env.inputMeta = some n) (hn : n ≠ 0)
    (hexists : env.outputExists = false) (hzstd : env.validZstd = true)
    (hsink : (writer_present config env && env.writeFails) = false)
    (hlines : env.lines = L.map .ok) :
    read_lines config env =
      finish_task config env
        (L.foldl (process_line config.no_write config.buffer config.pattern)
          initFilterState)
        L.length
        (if !config.no_write && !env.createOk then
          print_if_not_quiet config.quiet .unableToCreate
        else []) := by
  simp only [read_lines, hmeta, hexists, hzstd, hsink, hlines,
    Bool.not_true, Bool.false_eq_true, if_false, if_neg hn,
    runLoop_map_ok, Nat.zero_add]

/-- When sink writes succeed, the chunks `read_lines`'s epilogue reports are
exactly the final chunk list of the loop state, whatever the write
configuration. -/
theorem finish_task_sinkChunks (config : Config) (env : Env)
    (st : FilterState) (consumed : Nat) (ns : List Notice)
    (hsink : (writer_present config env && env.writeFails) = false) :
    (finish_task config env st consumed ns).sinkChunks = final_chunks st := by
  simp only [finish_task, hsink, Bool.and_false]
  by_cases h5 : st.flagDataWritten <;> by_cases h2 : writer_present config env <;>
    simp [h5, h2, final_chunks]

/-- Running the loop from the start associates the final state with the kept
lines in encounter order. -/
theorem filterInv_run (t : Nat) (pat : List Char → Bool) (L : List (List Char)) :
    FilterInv (L.foldl (process_line false t pat) initFilterState)
      (L.filter pat) := by
  simpa using filterInv_foldl t pat L initFilterState [] filterInv_init

/-- A concrete configuration used by witnesses: keep lines containing an x
character, 4 KiB flush threshold, raw output, writing enabled, not quiet. -/
def exConfig : Config :=
  { pattern := fun l => l.contains 'x', buffer := 4096, no_write := false,
    quiet := false, zstd := false, compression_level := 0, window_log_max := 27 }

/-- A concrete healthy environment used by witnesses: a 100-byte valid zstd
input, no pre-existing output, creation and writes succeed, and the four
decoded lines of the spec's example (a, bx, c, dx). -/
def exEnv : Env :=
  { inputMeta := some 100, outputExists := false, preexistingOutput := [],
    validZstd := true, createOk := true, writeFails := false,
    lines := [.ok ['a'], .ok ['b', 'x'], .ok ['c'], .ok ['d', 'x']] }

/-- C1: for every input whose decoded lines contain at least one line
matching the pattern, in encounter order L1..Ln, the bytes written to the
output are exactly L1 ++ sep ++ ... ++ Ln with no separator after Ln (and
the task returns Ok). -/
theorem c1_kept_lines_joined (config : Config) (env : Env)
    (L : List (List Char)) (n : Nat)
    (hmeta : env.inputMeta = some n) (hn : n ≠ 0)
    (hexists : env.outputExists = false) (hzstd : env.validZstd = true)
    (hcreate : env.createOk = true) (hnw : config.no_write = false)
    (hwf : env.writeFails = false) (hlines : env.lines = L.map .ok)
    (hmatch : L.filter config.pattern ≠ []) :
    (read_lines config env).sinkChunks.flatten =
      spec_joined (L.filter config.pattern) ∧
    (read_lines config env).outputAfter =
      some (spec_joined (L.filter config.pattern)) ∧
    (read_lines config env).result = .ok := by
  rw [read_lines_filter_phase config env L n hmeta hn hexists hzstd
    (by simp [hwf]) hlines, hnw]
  have hInv := filterInv_run config.buffer config.pattern L
  set st := L.foldl (process_line false config.buffer config.pattern)
    initFilterState with hst
  have hflag : st.flagDataWritten = true := by
    rw [hInv.2.2]
    simpa [List.isEmpty_iff] using hmatch
  have hwp : writer_present config env = true := by
    simp [writer_present, hnw, hcreate]
  have hjoin := final_chunks_flatten st (L.filter config.pattern) hInv
  refine ⟨?_, ?_, ?_⟩
  · rw [finish_task_sinkChunks config env st L.length _ (by simp [hwf]), hjoin]
  · simp [finish_task, hwf, Bool.and_false, hflag, hwp, hjoin]
  · simp [finish_task, hwf, Bool.and_false, hflag, hwp]

/-- Witness for C1 on the spec's example: lines a, bx, c, dx with an
x-containment pattern produce exactly the bytes bx, newline, dx. -/
theorem c1_witness :
    (read_lines exConfig exEnv).sinkChunks.flatten =
      ['b', 'x', sep, 'd', 'x'] ∧
    (read_lines exConfig exEnv).result = .ok :=
  have h := c1_kept_lines_joined exConfig exEnv
    [['a'], ['b', 'x'], ['c'], ['d', 'x']] 100
    rfl (by decide) rfl rfl rfl rfl rfl rfl (by decide)
  ⟨by rw [h.1]; decide, h.2.2⟩

/-- With `no_write` set, folding the loop body changes nothing. -/
theorem foldl_process_line_no_write (t : Nat) (pat : List Char → Bool)
    (L : List (List Char)) (st : FilterState) :
    L.foldl (process_line true t pat) st = st := by
  induction L generalizing st with
  | nil => rfl
  | cons l rest ih => rw [List.foldl_cons, process_line_no_write, ih]

/-- C2: the logical output content is independent of the configured buffer
flush threshold — two runs of the same input and pattern whose
configurations may differ arbitrarily in the threshold (and other
write-irrelevant fields) hand the same concatenated bytes to the output
sink. -/
theorem c2_flush_threshold_irrelevant (cfg1 cfg2 : Config) (env : Env)
    (L : List (List Char))
    (hpat : cfg1.pattern = cfg2.pattern) (hnw : cfg1.no_write = cfg2.no_write)
    (hwf : env.writeFails = false) (hlines : env.lines = L.map .ok) :
    (read_lines cfg1 env).sinkChunks.flatten =
      (read_lines cfg2 env).sinkChunks.flatten := by
  cases hmeta : env.inputMeta with
  | none => simp [read_lines, hmeta, skip_outcome]
  | some n =>
    by_cases hn : n = 0
    · simp [read_lines, hmeta, hn, skip_outcome]
    · by_cases hex : env.outputExists
      · simp [read_lines, hmeta, if_neg hn, hex, skip_outcome]
      · by_cases hz : env.validZstd
        · have hex' : env.outputExists = false := by simpa using hex
          rw [read_lines_filter_phase cfg1 env L n hmeta hn hex' hz
              (by simp [hwf]) hlines,
            read_lines_filter_phase cfg2 env L n hmeta hn hex' hz
              (by simp [hwf]) hlines,
            finish_task_sinkChunks _ _ _ _ _ (by simp [hwf]),
            finish_task_sinkChunks _ _ _ _ _ (by simp [hwf])]
          cases hb : cfg2.no_write with
          | true =>
            have h1 : cfg1.no_write = true := by rw [hnw, hb]
            rw [h1, foldl_process_line_no_write, foldl_process_line_no_write]
          | false =>
            have h1 : cfg1.no_write = false := by rw [hnw, hb]
            rw [h1,
              final_chunks_flatten _ _ (filterInv_run cfg1.buffer cfg1.pattern L),
              final_chunks_flatten _ _ (filterInv_run cfg2.buffer cfg2.pattern L),
              hpat]
        · have hz' : env.validZstd = false := by simpa using hz
          simp [read_lines, hmeta, if_neg hn, hex, hz', skip_outcome]

/-- Witness for C2: thresholds 4096 and 0 yield the same sink bytes on the
spec's example input. -/
theorem c2_witness :
    (read_lines exConfig exEnv).sinkChunks.flatten =
      (read_lines { exConfig with buffer := 0 } exEnv).sinkChunks.flatten :=
  c2_flush_threshold_irrelevant exConfig { exConfig with buffer := 0 } exEnv
    [['a'], ['b', 'x'], ['c'], ['d', 'x']] rfl rfl rfl rfl

/-- C3: for every input in which zero decoded lines match the pattern, no
output artifact exists after the task completes — the file created at task
start is deleted — and the deletion is reported as an informational notice
while the task returns Ok, not an error. -/
theorem c3_empty_output_deleted (config : Config) (env : Env)
    (L : List (List Char)) (n : Nat)
    (hmeta : env.inputMeta = some n) (hn : n ≠ 0)
    (hexists : env.outputExists = false) (hzstd : env.validZstd = true)
    (hcreate : env.createOk = true) (hnw : config.no_write = false)
    (hwf : env.writeFails = false) (hlines : env.lines = L.map .ok)
    (hquiet : config.quiet = false)
    (hnone : L.filter config.pattern = []) :
    (read_lines config env).result = .ok ∧
    (read_lines config env).outputAfter = none ∧
    (read_lines config env).notices = [Notice.emptyOutputDeleted] := by
  rw [read_lines_filter_phase config env L n hmeta hn hexists hzstd
    (by simp [hwf]) hlines, hnw]
  have hInv := filterInv_run config.buffer config.pattern L
  rw [hnone] at hInv
  obtain ⟨hlast, hbytes, hflag⟩ := hInv
  simp only [List.getLast?_nil] at hlast
  simp only [List.dropLast_nil, List.map_nil, List.flatten_nil,
    List.append_eq_nil] at hbytes
  simp only [List.isEmpty_nil, Bool.not_true] at hflag
  have hwp : writer_present config env = true := by
    simp [writer_present, hnw, hcreate]
  simp [finish_task, hwf, Bool.and_false, hlast, hbytes.1, hbytes.2, hflag,
    hwp, hcreate, hquiet, print_if_not_quiet]

/-- Witness for C3: a healthy input whose two lines both lack an x — the
task returns Ok, leaves no output file, and prints the deletion notice. -/
theorem c3_witness :
    (read_lines exConfig { exEnv with lines := [.ok ['a'], .ok ['c']] }).result
      = .ok ∧
    (read_lines exConfig
      { exEnv with lines := [.ok ['a'], .ok ['c']] }).outputAfter = none :=
  have h := c3_empty_output_deleted exConfig
    { exEnv with lines := [.ok ['a'], .ok ['c']] } [['a'], ['c']] 100
    rfl (by decide) rfl rfl rfl rfl rfl rfl rfl (by decide)
  ⟨h.1, h.2.1⟩

/-- C4: for every input whose destination output path already exists when
its task starts, the task ends before any output creation or decoding is
performed and the pre-existing artifact's bytes are unchanged. -/
theorem c4_existing_output_short_circuit (config : Config) (env : Env)
    (hex : env.outputExists = true) :
    (read_lines config env).createdOutput = false ∧
    (read_lines config env).decodedLineCount = 0 ∧
    (read_lines config env).outputAfter = some env.preexistingOutput ∧
    (read_lines config env).sinkChunks = [] := by
  unfold read_lines
  cases hmeta : env.inputMeta with
  | none => simp [skip_outcome, hex]
  | some n => by_cases hn : n = 0 <;> simp [skip_outcome, hex, hn]

/-- Witness for C4: a pre-existing one-byte output is untouched and nothing
is decoded. -/
theorem c4_witness :
    (read_lines exConfig
      { exEnv with outputExists := true, preexistingOutput := ['z'] }).outputAfter
      = some ['z'] ∧
    (read_lines exConfig
      { exEnv with outputExists := true, preexistingOutput := ['z'] }).decodedLineCount
      = 0 :=
  have h := c4_existing_output_short_circuit exConfig
    { exEnv with outputExists := true, preexistingOutput := ['z'] } rfl
  ⟨h.2.2.1, h.2.1⟩

/-- When the decoded lines contain an error and sink writes succeed, the
loop always ends in the decode panic. -/
theorem runLoop_error_panics (nw : Bool) (t : Nat) (pat : List Char → Bool)
    (lines : List (Except Unit (List Char))) (st : FilterState) (n : Nat)
    (h : lines.any is_decode_error = true) :
    ∃ m, runLoop nw false t pat st n lines = .panicDecode m := by
  induction lines generalizing st n with
  | nil => simp at h
  | cons l rest ih =>
    cases l with
    | error e => exact ⟨n, by simp [runLoop]⟩
    | ok line =>
      simp only [List.any_cons, is_decode_error, Bool.false_or] at h
      obtain ⟨m, hm⟩ := ih (process_line nw t pat st line) (n + 1) h
      exact ⟨m, by simp [runLoop, hm]⟩

/-- C5 counterexample: a run with no decode error at all still aborts the
whole process, through the `unwrap()` on the in-loop buffer flush when the
sink write fails — so a mid-stream decode failure is not the only error
path with process-fatal behaviour. -/
theorem c5_counterexample :
    (read_lines
      { exConfig with
        buffer := 1,
        pattern := fun _ => true }
      { exEnv with
        writeFails := true,
        lines := [.ok ['a'], .ok ['b']] }).result = .panicked ∧
    (({ exEnv with
        writeFails := true,
        lines := [.ok ['a'], .ok ['b']] } : Env)).lines.any is_decode_error
      = false := by
  exact ⟨rfl, rfl⟩

/-- C5 (amended): a decode failure on any line mid-stream aborts the whole
process as a fatal panic (never a per-file skip), and the only other error
path with this behaviour is a sink-write failure hitting the in-loop buffer
flush; every run that panics had a decode error or failing sink writes. -/
theorem c5_decode_error_fatal (config : Config) (env : Env) :
    ((read_lines config env).result = .panicked →
      env.lines.any is_decode_error = true ∨ env.writeFails = true) ∧
    (∀ n, env.inputMeta = some n → n ≠ 0 → env.outputExists = false →
      env.validZstd = true → env.writeFails = false →
      env.lines.any is_decode_error = true →
      (read_lines config env).result = .panicked) := by
  constructor
  · intro hp
    unfold read_lines at hp
    cases hmeta : env.inputMeta with
    | none =>
      simp only [hmeta] at hp
      simp [skip_outcome] at hp
    | some n =>
      simp only [hmeta] at hp
      by_cases hn : n = 0
      · simp [hn, skip_outcome] at hp
      · rw [if_neg hn] at hp
        by_cases hex : env.outputExists
        · simp [hex, skip_outcome] at hp
        · have hex' : env.outputExists = false := by simpa using hex
          rw [hex'] at hp
          by_cases hz : env.validZstd
          · rw [hz] at hp
            simp only [Bool.not_true, Bool.false_eq_true, if_false] at hp
            cases hloop : runLoop config.no_write
                (writer_present config env && env.writeFails) config.buffer
                config.pattern initFilterState 0 env.lines with
            | done st consumed =>
              rw [hloop] at hp
              exact absurd hp
                (finish_task_result_ne_panicked config env st consumed _)
            | panicDecode consumed =>
              exact Or.inl (runLoop_panicDecode_has_error _ _ _ _ _ _ _ _ hloop)
            | panicFlush consumed =>
              have := runLoop_panicFlush_sink _ _ _ _ _ _ _ _ hloop
              exact Or.inr (Bool.and_eq_true_iff.mp this).2
          · have hz' : env.validZstd = false := by simpa using hz
            rw [hz'] at hp
            simp [skip_outcome] at hp
  · intro n hmeta hn hexists hzstd hwf herr
    unfold read_lines
    simp only [hmeta, if_neg hn, hexists, hzstd, Bool.not_true,
      Bool.false_eq_true, if_false, hwf, Bool.and_false]
    obtain ⟨m, hm⟩ := runLoop_error_panics config.no_write config.buffer
      config.pattern env.lines initFilterState 0 herr
    rw [hm]

/-- Witness for the amended C5: a decode error on the second line of an
otherwise healthy run panics the process. -/
theorem c5_witness :
    (read_lines exConfig
      { exEnv with lines := [.ok ['a', 'x'], .error ()] }).result = .panicked :=
  (c5_decode_error_fatal exConfig
      { exEnv with lines := [.ok ['a', 'x'], .error ()] }).2
    100 rfl (by decide) rfl rfl rfl (by decide)

/-- C6 counterexample: when the output file cannot be created the task does
not abort — it still decodes and filters the whole input (one line decoded
here) and completes with Ok rather than ending before decoding. -/
theorem c6_counterexample :
    (read_lines exConfig
      { exEnv with
        createOk := false,
        lines := [.ok ['a', 'x']] }).decodedLineCount = 1 ∧
    (read_lines exConfig
      { exEnv with
        createOk := false,
        lines := [.ok ['a', 'x']] }).result = .ok :=
  ⟨rfl, rfl⟩

/-- C6 (amended): when the destination output file cannot be created, the
task prints a notice and continues decoding and filtering the whole input
with every write discarded — no artifact is ever created — and completes
without panicking (other in-flight tasks are unaffected), returning Ok when
some line matched and a NotFound error from the empty-output deletion
attempt when none did. -/
theorem c6_create_failure_continues (config : Config) (env : Env)
    (L : List (List Char)) (n : Nat)
    (hmeta : env.inputMeta = some n) (hn : n ≠ 0)
    (hexists : env.outputExists = false) (hzstd : env.validZstd = true)
    (hcreate : env.createOk = false) (hnw : config.no_write = false)
    (hlines : env.lines = L.map .ok) :
    (read_lines config env).decodedLineCount = L.length ∧
    (read_lines config env).createdOutput = false ∧
    (read_lines config env).outputAfter = none ∧
    (read_lines config env).result ≠ .panicked ∧
    (config.quiet = false →
      (read_lines config env).notices = [Notice.unableToCreate]) ∧
    (L.filter config.pattern ≠ [] → (read_lines config env).result = .ok) ∧
    (L.filter config.pattern = [] →
      (read_lines config env).result = .err .notFound) := by
  have hwp : writer_present config env = false := by
    simp [writer_present, hcreate]
  rw [read_lines_filter_phase config env L n hmeta hn hexists hzstd
    (by simp [hwp]) hlines, hnw]
  have hInv := filterInv_run config.buffer config.pattern L
  set st := L.foldl (process_line false config.buffer config.pattern)
    initFilterState with hst
  have hflag := hInv.2.2
  have hns : (if !false && !env.createOk then
      print_if_not_quiet config.quiet .unableToCreate else []) =
      print_if_not_quiet config.quiet .unableToCreate := by
    simp [hcreate]
  rw [hns]
  refine ⟨?_, ?_, ?_, ?_, ?_, ?_, ?_⟩
  · by_cases hf : st.flagDataWritten <;> simp [finish_task, hwp, hf]
  · by_cases hf : st.flagDataWritten <;> simp [finish_task, hwp, hf]
  · by_cases hf : st.flagDataWritten <;> simp [finish_task, hwp, hf]
  · by_cases hf : st.flagDataWritten <;> simp [finish_task, hwp, hf]
  · intro hq
    by_cases hf : st.flagDataWritten <;>
      simp [finish_task, hwp, hf, print_if_not_quiet, hq]
  · intro hm
    have hflag' : st.flagDataWritten = true := by
      rw [hflag]
      simpa [List.isEmpty_iff] using hm
    simp [finish_task, hwp, hflag']
  · intro hm
    have hflag' : st.flagDataWritten = false := by
      rw [hflag, hm]
      simp
    simp [finish_task, hwp, hflag']

/-- Witness for the amended C6: create failure with one matching line —
no artifact, Ok result. -/
theorem c6_witness :
    (read_lines exConfig
      { exEnv with
        createOk := false,
        lines := [.ok ['a', 'x']] }).outputAfter = none ∧
    (read_lines exConfig
      { exEnv with
        createOk := false,
        lines := [.ok ['a', 'x']] }).result = .ok :=
  have h := c6_create_failure_continues exConfig
    { exEnv with
      createOk := false,
      lines := [.ok ['a', 'x']] } [['a', 'x']] 100
    rfl (by decide) rfl rfl rfl rfl rfl
  ⟨h.2.2.1, h.2.2.2.2.2.1 (by decide)⟩

/-- C7: on every estimator tick the remaining-time computation never faults
when the I/O read rate is zero or the processed-size estimate exceeds the
total to-be-processed size: the result is always bounded by u64::MAX, a zero
rate yields the sentinel 0 or u64::MAX instead of a division fault, and in
the sane regime it is the truncated remaining-bytes-over-rate. -/
theorem c7_eta_bounded (toBeProcessed estimate diskReads : Nat)
    (h1 : toBeProcessed < 2 ^ 64) (h2 : estimate < 2 ^ 64) :
    eta_seconds toBeProcessed estimate diskReads ≤ U64MAX ∧
    (diskReads = 0 →
      eta_seconds toBeProcessed estimate diskReads = 0 ∨
      eta_seconds toBeProcessed estimate diskReads = U64MAX) ∧
    (estimate ≤ toBeProcessed → diskReads ≠ 0 →
      eta_seconds toBeProcessed estimate diskReads =
        min ((toBeProcessed - estimate) / diskReads) U64MAX) := by
  refine ⟨?_, ?_, ?_⟩
  · simp only [eta_seconds]
    split
    · split
      · exact Nat.zero_le _
      · exact Nat.le_refl _
    · exact min_le_right _ _
  · intro h0
    simp only [eta_seconds, if_pos h0]
    split
    · exact Or.inl rfl
    · exact Or.inr rfl
  · intro hle hne
    simp only [eta_seconds, if_neg hne]
    congr 2
    unfold wrapping_sub_u64
    omega

/-- Witness for C7: total 100, estimate 200 (overshoot), zero read rate —
the tick still yields a bounded sentinel. -/
theorem c7_witness :
    eta_seconds 100 200 0 ≤ U64MAX ∧
    (eta_seconds 100 200 0 = 0 ∨ eta_seconds 100 200 0 = U64MAX) :=
  have h := c7_eta_bounded 100 200 0 (by norm_num) (by norm_num)
  ⟨h.1, h.2.1 rfl⟩

/-- C8: the buffer is flushed immediately whenever an append brings its
length to the threshold, so after every processed line the buffer is
strictly below the threshold (empty, when the threshold is 0), and an
append grows the buffer by at most one promoted line plus its one-byte
separator before that flush can happen. -/
theorem c8_buffer_invariant (noWrite : Bool) (t : Nat)
    (pat : List Char → Bool) (L : List (List Char)) (st : FilterState)
    (line : List Char) :
    (List.foldl (process_line noWrite t pat) initFilterState L).buffer.length
      < max t 1 ∧
    (pat line = true → noWrite = false →
      t ≤ (after_append st line).buffer.length →
      process_line noWrite t pat st line = flush_buffer (after_append st line)
      ∧ (process_line noWrite t pat st line).buffer = []) ∧
    (after_append st line).buffer.length ≤
      st.buffer.length +
        (match st.lastMatchingLine with
         | some p => p.length + 1
         | none => 0) := by
  refine ⟨?_, ?_, ?_⟩
  · have h0 : initFilterState.buffer.length < max t 1 := by
      have := le_max_right t 1
      simp only [initFilterState, List.length_nil]
      omega
    exact foldl_buffer_lt noWrite t pat L initFilterState h0
  · intro hp hw hth
    subst hw
    refine ⟨?_, ?_⟩
    · simp [process_line, hp, if_pos hth]
    · simp [process_line, hp, if_pos hth, flush_buffer]
  · cases hl : st.lastMatchingLine with
    | none => simp [after_append, hl]
    | some p => simp [after_append, hl]

/-- Witness for C8: threshold 1, a pending line a and incoming line b —
the step is exactly an immediate flush and leaves the buffer empty. -/
theorem c8_witness :
    (List.foldl (process_line false 1 (fun _ => true)) initFilterState
      [['a'], ['b']]).buffer.length < max 1 1 ∧
    process_line false 1 (fun _ => true)
      { buffer := [], lastMatchingLine := some ['a'],
        flagDataWritten := true, out := [] } ['b'] =
      flush_buffer (after_append
        { buffer := [], lastMatchingLine := some ['a'],
          flagDataWritten := true, out := [] } ['b']) :=
  have h := c8_buffer_invariant false 1 (fun _ => true) [['a'], ['b']]
    { buffer := [], lastMatchingLine := some ['a'],
      flagDataWritten := true, out := [] } ['b']
  ⟨h.1, (h.2.1 rfl rfl (by decide)).1⟩

/-- The epilogue never touches the to-be-processed reservation. -/
theorem finish_task_delta (config : Config) (env : Env) (st : FilterState)
    (consumed : Nat) (ns : List Notice) :
    (finish_task config env st consumed ns).toBeProcessedDelta = 0 := by
  by_cases h1 : st.buffer.isEmpty <;>
    by_cases h2 : writer_present config env <;>
    by_cases h3 : env.writeFails <;>
    by_cases h4 : st.lastMatchingLine.isSome <;>
    by_cases h5 : st.flagDataWritten <;>
    simp [finish_task, h1, h2, h3, h4, h5]

/-- C9 counterexample: a wrong-format skip (7-byte input whose signature
check fails) ends the task without correcting the reservation — the
to-be-processed counter is not decremented at this skip, contradicting the
claim that every skip condition corrects the reservation. -/
theorem c9_counterexample :
    (read_lines exConfig
      { exEnv with
        validZstd := false,
        inputMeta := some 7 }).skipped = some .invalidFormat ∧
    (read_lines exConfig
      { exEnv with
        validZstd := false,
        inputMeta := some 7 }).toBeProcessedDelta = 0 :=
  ⟨rfl, rfl⟩

/-- C9 (amended): the shared to-be-processed counter is decremented only on
the already-exists skip — exactly once, by the input's reserved size, before
any decoding — while the empty, unreadable and wrong-format skips leave the
reservation uncorrected (an empty input reserved zero bytes anyway). -/
theorem c9_decrement_only_exists_skip (config : Config) (env : Env) :
    ((read_lines config env).toBeProcessedDelta ≠ 0 →
      (read_lines config env).skipped = some .alreadyExists ∧
      env.inputMeta = some (read_lines config env).toBeProcessedDelta ∧
      (read_lines config env).decodedLineCount = 0) ∧
    (∀ n, env.inputMeta = some n → n ≠ 0 → env.outputExists = true →
      (read_lines config env).skipped = some .alreadyExists ∧
      (read_lines config env).toBeProcessedDelta = n) := by
  constructor
  · intro hd
    unfold read_lines at hd ⊢
    cases hmeta : env.inputMeta with
    | none =>
      simp only [hmeta] at hd
      simp [skip_outcome] at hd
    | some n =>
      simp only [hmeta] at hd ⊢
      by_cases hn : n = 0
      · simp [hn, skip_outcome] at hd
      · rw [if_neg hn] at hd ⊢
        by_cases hex : env.outputExists
        · rw [hex] at hd ⊢
          simp only [if_true]
          exact ⟨rfl, rfl, rfl⟩
        · have hex' : env.outputExists = false := by simpa using hex
          rw [hex'] at hd
          by_cases hz : env.validZstd
          · rw [hz] at hd
            simp only [Bool.not_true, Bool.false_eq_true, if_false] at hd
            cases hloop : runLoop config.no_write
                (writer_present config env && env.writeFails) config.buffer
                config.pattern initFilterState 0 env.lines with
            | done st consumed =>
              rw [hloop] at hd
              exact absurd (finish_task_delta config env st consumed _) hd
            | panicDecode consumed =>
              rw [hloop] at hd
              simp at hd
            | panicFlush consumed =>
              rw [hloop] at hd
              simp at hd
          · have hz' : env.validZstd = false := by simpa using hz
            rw [hz'] at hd
            simp [skip_outcome] at hd
  · intro n hmeta hn hex
    unfold read_lines
    simp only [hmeta, if_neg hn, hex, if_true]
    exact ⟨rfl, rfl⟩

/-- Witness for the amended C9: a 100-byte input whose output already
exists — the reservation is corrected by exactly 100 bytes. -/
theorem c9_witness :
    (read_lines exConfig
      { exEnv with outputExists := true }).toBeProcessedDelta = 100 :=
  ((c9_decrement_only_exists_skip exConfig
      { exEnv with outputExists := true }).2 100 rfl (by decide) rfl).2

/-- C10: with the no-write option enabled, for every non-skipped input that
decodes cleanly the data-written flag is never set, so the task reaches the
empty-output deletion branch, tries to remove a file that was never created,
and returns a NotFound I/O error instead of Ok. -/
theorem c10_no_write_notfound (config : Config) (env : Env)
    (L : List (List Char)) (n : Nat)
    (hmeta : env.inputMeta = some n) (hn : n ≠ 0)
    (hexists : env.outputExists = false) (hzstd : env.validZstd = true)
    (hnw : config.no_write = true) (hlines : env.lines = L.map .ok) :
    (read_lines config env).flagDataWritten = false ∧
    (read_lines config env).createdOutput = false ∧
    (read_lines config env).outputAfter = none ∧
    (read_lines config env).result = .err .notFound := by
  have hwp : writer_present config env = false := by
    simp [writer_present, hnw]
  rw [read_lines_filter_phase config env L n hmeta hn hexists hzstd
    (by simp [hwp]) hlines, hnw, foldl_process_line_no_write]
  refine ⟨?_, ?_, ?_, ?_⟩ <;> simp [finish_task, hwp, initFilterState]

/-- Witness for C10: no-write run over one matching line returns the
NotFound error. -/
theorem c10_witness :
    (read_lines { exConfig with no_write := true }
      { exEnv with lines := [.ok ['a', 'x']] }).result = .err .notFound :=
  (c10_no_write_notfound { exConfig with no_write := true }
    { exEnv with lines := [.ok ['a', 'x']] } [['a', 'x']] 100
    rfl (by decide) rfl rfl rfl rfl).2.2.2
